import Mathlib

/-! The program speexdsp-cli: argument parser and frame filter loop.

A shallow embedding of `programs/mic_filter/speexdsp-cli/src/main.cpp`:
the option scan of `main`, `ensureArg`, `printUsage`, and the
read / process / write loop over fixed-size frames, followed by the
properties of the program that the specification states.

* `argv` is a list of strings; `argc` is its length; `argv[0]` is the program
  name and the options start at `argv[1]`.
* `int` is a 32-bit two's complement integer and `size_t` a 64-bit unsigned
  one, both carried by `Int` / `Nat` with explicit wrap-around.
* standard input is a finite list of 16-bit samples; `fread` hands out whole
  samples only.
* the preprocessing engine is an external library and enters as a parameter.
* the `while` loop is run with a fuel argument that bounds the number of
  times its condition is evaluated; `none` means the fuel ran out.
-/

namespace SpeexCli

/-! ## C library conversions -/

/-- Value of an `int` after wrap-around to 32 bits, two's complement. -/
def toInt32 (x : Int) : Int := (x + 2147483648) % 4294967296 - 2147483648

/-- Conversion `(size_t)x` of an `int` to a 64-bit unsigned integer. -/
def toSizeT (x : Int) : Nat := (x % 18446744073709551616).toNat

/-- Saturation of `strtol` to the range of a 64-bit `long`. -/
def clampLong (x : Int) : Int :=
  if x < -9223372036854775808 then -9223372036854775808
  else if 9223372036854775807 < x then 9223372036854775807
  else x

/-- White space in the sense of `isspace` in the "C" locale:
space, `\t`, `\n`, `\v`, `\f`, `\r`. -/
def isspace (c : Char) : Bool :=
  c.toNat = 32 || (9 ≤ c.toNat && c.toNat ≤ 13)

/-- Drop the leading white space of a C string. -/
def skipSpace : List Char → List Char
  | [] => []
  | c :: cs => if isspace c then skipSpace cs else c :: cs

/-- Accumulate the longest prefix of decimal digits, most significant first,
starting from `acc`; conversion stops at the first character that is not a
digit. -/
def digitsAcc (acc : Nat) : List Char → Nat
  | [] => acc
  | c :: cs => if c.isDigit then digitsAcc (acc * 10 + (c.toNat - 48)) cs else acc

/-- The call `strtol(s, NULL, 10)`: optional white space, optional sign,
decimal digits; no digits give 0; the result saturates to `long`. -/
def strtol (s : List Char) : Int :=
  match skipSpace s with
  | '-' :: cs => clampLong (-(digitsAcc 0 cs : Int))
  | '+' :: cs => clampLong (digitsAcc 0 cs)
  | cs => clampLong (digitsAcc 0 cs)

/-- The call `atoi(s)` of the C library, that is `(int)strtol(s, NULL, 10)`.
For a value outside the range of `int` the C standard fixes no result; the
value here is the one of the GNU C library: saturate to `long`, then wrap to
32 bits. -/
def atoi (s : String) : Int := toInt32 (strtol s.toList)

/-! ## Configuration and argument parser -/

/-- The two locals of `main` that the option scan sets:
`int sample_rate` and `size_t frame_size`. -/
structure Config where
  sample_rate : Int
  frame_size : Nat
  deriving DecidableEq

/-- Initial values: `sample_rate = 16000`, `frame_size = 320`. -/
def defaultConfig : Config := { sample_rate := 16000, frame_size := 320 }

/-- Which of the two `printUsage(argv); exit(0);` sites ended the scan.
Both have the same observable effect. -/
inductive UsageExit where
  | help
  | missingValue
  deriving DecidableEq

/-- How the option scan ends: the loop runs to completion with a
configuration, or the process exits after printing the usage text. -/
inductive Parsed where
  | config (cfg : Config)
  | usageExit (why : UsageExit)
  deriving DecidableEq

/-- The test of `ensureArg(argc, argv, argi)`: `true` when `(argi + 1) >= argc`,
in which case `ensureArg` calls `printUsage(argv)` and `exit(0)`. -/
def ensureArg (argc : Nat) (argi : Nat) : Bool := decide (argi + 1 ≥ argc)

/-- The `for (...; i < argc; i++)` loop of `main`, entered with index `i`.
An option with a value passes `ensureArg`, converts `argv[++i]`, and the loop
goes on at the index after the value.  Any token that is not an option is
passed over. -/
def parseLoop (argv : List String) (cfg : Config) (i : Nat) : Parsed :=
  if i < argv.length then
    let arg := argv.getD i ""
    if arg = "-r" ∨ arg = "--rate" then
      if ensureArg argv.length i then .usageExit .missingValue
      else parseLoop argv { cfg with sample_rate := atoi (argv.getD (i + 1) "") } (i + 1 + 1)
    else if arg = "-s" ∨ arg = "--samples" then
      if ensureArg argv.length i then .usageExit .missingValue
      else
        parseLoop argv { cfg with frame_size := toSizeT (atoi (argv.getD (i + 1) "")) }
          (i + 1 + 1)
    else if arg = "-h" ∨ arg = "--help" then
      .usageExit .help
    else
      parseLoop argv cfg (i + 1)
  else .config cfg
termination_by argv.length - i

/-- The option scan of `main`: the loop from `i = 1` with the initial values. -/
def parseArgs (argv : List String) : Parsed :=
  parseLoop argv defaultConfig 1

/-- Text that `printUsage(argv)` sends to `cerr`. -/
def printUsage (argv : List String) : String :=
  "\n" ++
  "usage: " ++ argv.getD 0 "" ++ " [options]" ++ "\n" ++
  "\n" ++
  "options:" ++ "\n" ++
  "   -h           --help              show this message and exit" ++ "\n" ++
  "   -r  RATE     --rate     RATE     sample rate (default: 16000)" ++ "\n" ++
  "   -s  SAMPLES  --samples  SAMPLES  frame size (default: 320)" ++ "\n" ++
  "\n"

/-! ## Engine, streams and the frame loop -/

/-- One `int16_t` sample.  The program moves samples and never inspects them. -/
abbrev Sample := Int

/-- The external preprocessing engine with state type `σ`, taken as a
parameter: `speex_preprocess_state_init(frame_size, sample_rate)` and
`speex_preprocess_run(state, samples)`, which updates the state and rewrites
the frame buffer in place, so the buffer keeps its length.  The library
header is outside the sources; the interface is the one the specification
gives: `create(frame_size, sample_rate) -> handle` and
`run(handle, frame_buffer) -> (frame_buffer mutated in place)`. -/
structure Engine (σ : Type) where
  init : Nat → Int → σ
  run : σ → List Sample → σ × List Sample
  run_length : ∀ s frame, (run s frame).2.length = frame.length

/-- Calls that the program makes, in program order. -/
inductive Event where
  | usage
  | engineInit (frame_size : Nat) (sample_rate : Int)
  | fread (nmemb : Nat) (count : Nat)
  | engineRun (frame : List Sample)
  | fwrite (items : List Sample)
  | fflush
  | engineDestroy
  deriving DecidableEq

/-- The call `fread(samples, sizeof(int16_t), nmemb, stdin)` on a finite
stream: as many samples as are left, at most `nmemb`, overwrite the front of
the buffer.  Result: the count returned, the buffer, the rest of the stream. -/
def fread (samples : List Sample) (nmemb : Nat) (stdin : List Sample) :
    Nat × List Sample × List Sample :=
  ((stdin.take nmemb).length,
   stdin.take nmemb ++ samples.drop (stdin.take nmemb).length,
   stdin.drop nmemb)

/-- Variables live across the `while` loop, with the streams and the trace. -/
structure Run (σ : Type) where
  state : σ
  samples : List Sample
  frames_read : Nat
  stdin : List Sample
  stdout : List Sample
  trace : List Event

/-- One pass through the body of the `while` loop: run the engine on the
buffer, write `frame_size` samples of it, flush, read the next frame. -/
def loopBody {σ : Type} (E : Engine σ) (frame_size : Nat) (r : Run σ) : Run σ :=
  let p := E.run r.state r.samples
  let items := p.2.take frame_size
  let rd := fread p.2 frame_size r.stdin
  { state := p.1
    samples := rd.2.1
    frames_read := rd.1
    stdin := rd.2.2
    stdout := r.stdout ++ items
    trace := r.trace ++
      [.engineRun r.samples, .fwrite items, .fflush, .fread frame_size rd.1] }

/-- The loop `while (frames_read == frame_size) { ... }`.  The fuel bounds the
number of evaluations of the condition; `none` when it runs out. -/
def whileLoop {σ : Type} (E : Engine σ) (frame_size : Nat) : Nat → Run σ → Option (Run σ)
  | 0, _ => none
  | fuel + 1, r =>
    if r.frames_read = frame_size then whileLoop E frame_size fuel (loopBody E frame_size r)
    else some r

/-- What a finished process leaves behind. -/
structure Outcome where
  exitCode : Int
  stdout : List Sample
  stderr : String
  trace : List Event
  deriving DecidableEq

/-- From engine creation to `return 0`, for a parsed configuration.  The
buffer `samples[frame_size]` starts with indeterminate contents, taken as
zeros here; `fread` overwrites it before the loop body uses it. -/
def filter {σ : Type} (E : Engine σ) (fuel : Nat) (cfg : Config) (stdin : List Sample) :
    Option Outcome :=
  let state := E.init cfg.frame_size cfg.sample_rate
  let rd := fread (List.replicate cfg.frame_size 0) cfg.frame_size stdin
  let r0 : Run σ :=
    { state := state
      samples := rd.2.1
      frames_read := rd.1
      stdin := rd.2.2
      stdout := []
      trace := [.engineInit cfg.frame_size cfg.sample_rate, .fread cfg.frame_size rd.1] }
  match whileLoop E cfg.frame_size fuel r0 with
  | none => none
  | some r =>
    some { exitCode := 0, stdout := r.stdout, stderr := "", trace := r.trace ++ [.engineDestroy] }

/-- The program: option scan, then either the usage exit or the filter. -/
def main {σ : Type} (E : Engine σ) (fuel : Nat) (argv : List String) (stdin : List Sample) :
    Option Outcome :=
  match parseArgs argv with
  | .usageExit _ =>
    some { exitCode := 0, stdout := [], stderr := printUsage argv, trace := [.usage] }
  | .config cfg => filter E fuel cfg stdin

/-- An engine that leaves every frame as it is and keeps no state. -/
def passEngine : Engine Unit where
  init := fun _ _ => ()
  run := fun _ frame => ((), frame)
  run_length := fun _ _ => rfl

/-- An engine with state: it counts the frames seen so far and adds the count
to every sample of the frame. -/
def countEngine : Engine Int where
  init := fun _ _ => 0
  run := fun n frame => (n + 1, frame.map (fun x => x + n))
  run_length := fun _ _ => by simp

/-- A sample command line: frame size 3, default rate. -/
def demoArgv : List String := ["speexdsp-cli", "-s", "3"]

/-- A sample input: two full frames of three samples and two more samples. -/
def demoInput : List Sample := [1, 2, 3, 4, 5, 6, 7, 8]

/-- What `demoArgv` on `demoInput` leaves behind with the counting engine. -/
def demoOutcome : Outcome :=
  { exitCode := 0
    stdout := [1, 2, 3, 5, 6, 7]
    stderr := ""
    trace := [.engineInit 3 16000, .fread 3 3,
              .engineRun [1, 2, 3], .fwrite [1, 2, 3], .fflush, .fread 3 3,
              .engineRun [4, 5, 6], .fwrite [5, 6, 7], .fflush, .fread 3 2,
              .engineDestroy] }

/-! ## Specification-side notions -/

/-- The option scan as a left-to-right pass over the arguments that are
still to be read: an option with a value takes the next token, whatever it
is; a help token stops the scan; any other token is passed over. -/
def scanList (cfg : Config) : List String → Parsed
  | [] => .config cfg
  | arg :: rest =>
    if arg = "-r" ∨ arg = "--rate" then
      match rest with
      | [] => .usageExit .missingValue
      | v :: rest' => scanList { cfg with sample_rate := atoi v } rest'
    else if arg = "-s" ∨ arg = "--samples" then
      match rest with
      | [] => .usageExit .missingValue
      | v :: rest' => scanList { cfg with frame_size := toSizeT (atoi v) } rest'
    else if arg = "-h" ∨ arg = "--help" then
      .usageExit .help
    else
      scanList cfg rest

/-- The four option tokens that take a value. -/
def valueOptions : List String := ["-r", "--rate", "-s", "--samples"]

/-- The two help tokens. -/
def helpOptions : List String := ["-h", "--help"]

/-- Positional value of a string of decimal digits, most significant first. -/
def decimalValue : List Char → Nat
  | [] => 0
  | c :: cs => (c.toNat - 48) * 10 ^ cs.length + decimalValue cs

/-- A decimal integer token: an optional minus sign, then the digits `ds`. -/
def decimalToken (neg : Bool) (ds : List Char) : String :=
  String.mk (if neg then '-' :: ds else ds)

/-- The integer that `decimalToken neg ds` denotes. -/
def decimalInt (neg : Bool) (ds : List Char) : Int :=
  if neg then -(decimalValue ds : Int) else (decimalValue ds : Int)

/-- The arguments that the option scan hands to `atoi`: each argument that
directly follows a scanned `-r`, `--rate`, `-s` or `--samples`. -/
def valueTokens : List String → List String
  | [] => []
  | [_] => []
  | arg :: v :: rest =>
    if arg ∈ valueOptions then v :: valueTokens rest else valueTokens (v :: rest)

/-- An event of the loop body or of the read before it: neither the usage
text nor the creation or release of the engine. -/
def Event.isLoopEvent : Event → Bool
  | .engineRun _ => true
  | .fwrite _ => true
  | .fflush => true
  | .fread _ _ => true
  | _ => false

/-- The state at the loop head right after `fread` has been called on the
stream `pre` with buffer `buf`. -/
def atHead {σ : Type} (N : Nat) (s : σ) (buf pre out : List Sample) (tr : List Event) : Run σ :=
  { state := s
    samples := (fread buf N pre).2.1
    frames_read := (fread buf N pre).1
    stdin := (fread buf N pre).2.2
    stdout := out
    trace := tr }

/-! ## Lemmas on the conversions -/

theorem toInt32_of_range (x : Int) (h1 : -2147483648 ≤ x) (h2 : x ≤ 2147483647) :
    toInt32 x = x := by
  unfold toInt32; omega

theorem toInt32_bounds (x : Int) : -2147483648 ≤ toInt32 x ∧ toInt32 x ≤ 2147483647 := by
  unfold toInt32; omega

theorem toSizeT_of_nonneg (x : Int) (h1 : 0 ≤ x) (h2 : x ≤ 2147483647) :
    toSizeT x = x.toNat := by
  unfold toSizeT
  congr 1
  omega

theorem toSizeT_pos (x : Int) (h1 : 0 < x) (h2 : x ≤ 2147483647) : 0 < toSizeT x := by
  rw [toSizeT_of_nonneg x (le_of_lt h1) h2]
  omega

theorem clampLong_of_range (x : Int) (h1 : -2147483648 ≤ x) (h2 : x ≤ 2147483647) :
    clampLong x = x := by
  unfold clampLong
  rw [if_neg (by omega), if_neg (by omega)]

theorem isDigit_toNat (c : Char) (h : c.isDigit = true) : 48 ≤ c.toNat ∧ c.toNat ≤ 57 := by
  simp only [Char.isDigit, Bool.and_eq_true, decide_eq_true_eq] at h
  exact ⟨h.1, h.2⟩

theorem isspace_of_isDigit (c : Char) (h : c.isDigit = true) : isspace c = false := by
  have := isDigit_toNat c h
  simp only [isspace, Bool.or_eq_false_iff, Bool.and_eq_false_imp, decide_eq_false_iff_not,
    decide_eq_true_eq]
  omega

theorem digitsAcc_eq (ds : List Char) (hd : ∀ ch ∈ ds, ch.isDigit = true) (acc : Nat) :
    digitsAcc acc ds = acc * 10 ^ ds.length + decimalValue ds := by
  induction ds generalizing acc with
  | nil => simp [digitsAcc, decimalValue]
  | cons c cs ih =>
    have hc : c.isDigit = true := hd c (List.mem_cons_self c cs)
    have hcs : ∀ ch ∈ cs, ch.isDigit = true := fun ch h => hd ch (List.mem_cons_of_mem c h)
    simp only [digitsAcc, hc, if_true, decimalValue, List.length_cons]
    rw [ih hcs]
    ring

theorem strtol_digits (ds : List Char) (hne : ds ≠ []) (hd : ∀ ch ∈ ds, ch.isDigit = true) :
    strtol ds = clampLong (decimalValue ds) := by
  cases ds with
  | nil => exact absurd rfl hne
  | cons c cs =>
    have hc : c.isDigit = true := hd c (List.mem_cons_self c cs)
    have hsp : skipSpace (c :: cs) = c :: cs := by
      simp [skipSpace, isspace_of_isDigit c hc]
    have hn := isDigit_toNat c hc
    have h1 : c ≠ '-' := by
      intro h; subst h; revert hn; decide
    have h2 : c ≠ '+' := by
      intro h; subst h; revert hn; decide
    unfold strtol
    rw [hsp]
    split
    · rename_i heq; simp only [List.cons.injEq] at heq; exact absurd heq.1 h1
    · rename_i heq; simp only [List.cons.injEq] at heq; exact absurd heq.1 h2
    · rw [digitsAcc_eq (c :: cs) hd 0]; simp

theorem strtol_minus_digits (ds : List Char) (hd : ∀ ch ∈ ds, ch.isDigit = true) :
    strtol ('-' :: ds) = clampLong (-(decimalValue ds : Int)) := by
  have hsp : skipSpace ('-' :: ds) = '-' :: ds := by
    simp [skipSpace, isspace]
  unfold strtol
  rw [hsp]
  simp only
  rw [digitsAcc_eq ds hd 0]; simp

theorem atoi_decimalToken (neg : Bool) (ds : List Char) (hne : ds ≠ [])
    (hd : ∀ ch ∈ ds, ch.isDigit = true)
    (h1 : -2147483648 ≤ decimalInt neg ds) (h2 : decimalInt neg ds ≤ 2147483647) :
    atoi (decimalToken neg ds) = decimalInt neg ds := by
  cases neg with
  | false =>
    simp only [decimalInt, Bool.false_eq_true, if_false] at h1 h2 ⊢
    simp only [atoi, decimalToken, Bool.false_eq_true, if_false, String.toList]
    rw [strtol_digits ds hne hd, clampLong_of_range _ h1 h2, toInt32_of_range _ h1 h2]
  | true =>
    simp only [decimalInt, if_true] at h1 h2 ⊢
    simp only [atoi, decimalToken, if_true, String.toList]
    rw [strtol_minus_digits ds hd, clampLong_of_range _ h1 h2, toInt32_of_range _ h1 h2]

/-! ## Lemmas on the option scan -/

theorem scanList_other (cfg : Config) (arg : String) (rest : List String)
    (h1 : ¬ (arg = "-r" ∨ arg = "--rate")) (h2 : ¬ (arg = "-s" ∨ arg = "--samples"))
    (h3 : ¬ (arg = "-h" ∨ arg = "--help")) :
    scanList cfg (arg :: rest) = scanList cfg rest := by
  cases rest <;> simp only [scanList, h1, h2, h3, if_false]

theorem scanList_help_of (cfg : Config) (arg : String) (rest : List String)
    (h1 : ¬ (arg = "-r" ∨ arg = "--rate")) (h2 : ¬ (arg = "-s" ∨ arg = "--samples"))
    (h3 : arg = "-h" ∨ arg = "--help") :
    scanList cfg (arg :: rest) = .usageExit .help := by
  cases rest <;> simp only [scanList, h1, h2, h3, if_false, if_true]

theorem scanList_append_config (c : Config) (A : List String) :
    ∀ (B : List String) (c1 : Config),
      scanList c A = .config c1 → scanList c (A ++ B) = scanList c1 B := by
  induction c, A using scanList.induct with
  | case1 cfg =>
    intro B c1 h
    simp only [scanList, Parsed.config.injEq] at h
    simp [h]
  | case2 cfg v hv =>
    intro B c1 h
    simp [scanList, hv] at h
  | case3 cfg v hv v1 rest ih =>
    intro B c1 h
    simp only [scanList, hv, if_true] at h
    simp only [List.cons_append, scanList, hv, if_true]
    exact ih B c1 h
  | case4 cfg v hr hv =>
    intro B c1 h
    simp [scanList, hr, hv] at h
  | case5 cfg v hr hv v1 rest ih =>
    intro B c1 h
    simp only [scanList, hr, hv, if_true, if_false] at h
    simp only [List.cons_append, scanList, hr, hv, if_true, if_false]
    exact ih B c1 h
  | case6 cfg v rest hr hs hv =>
    intro B c1 h
    simp [scanList_help_of cfg v rest hr hs hv] at h
  | case7 cfg v rest hr hs hh ih =>
    intro B c1 h
    rw [scanList_other cfg v rest hr hs hh] at h
    rw [List.cons_append, scanList_other cfg v _ hr hs hh]
    exact ih B c1 h

theorem scanList_append_help (c : Config) (A : List String) :
    ∀ (B : List String),
      scanList c A = .usageExit .help → scanList c (A ++ B) = .usageExit .help := by
  induction c, A using scanList.induct with
  | case1 cfg =>
    intro B h
    simp [scanList] at h
  | case2 cfg v hv =>
    intro B h
    simp [scanList, hv] at h
  | case3 cfg v hv v1 rest ih =>
    intro B h
    simp only [scanList, hv, if_true] at h
    simp only [List.cons_append, scanList, hv, if_true]
    exact ih B h
  | case4 cfg v hr hv =>
    intro B h
    simp [scanList, hr, hv] at h
  | case5 cfg v hr hv v1 rest ih =>
    intro B h
    simp only [scanList, hr, hv, if_true, if_false] at h
    simp only [List.cons_append, scanList, hr, hv, if_true, if_false]
    exact ih B h
  | case6 cfg v rest hr hs hv =>
    intro B _
    rw [List.cons_append, scanList_help_of cfg v _ hr hs hv]
  | case7 cfg v rest hr hs hh ih =>
    intro B h
    rw [scanList_other cfg v rest hr hs hh] at h
    rw [List.cons_append, scanList_other cfg v _ hr hs hh]
    exact ih B h

theorem scanList_help (c : Config) (h : String) (B : List String)
    (hh : h = "-h" ∨ h = "--help") : scanList c (h :: B) = .usageExit .help := by
  rcases hh with rfl | rfl <;> exact scanList_help_of c _ B (by decide) (by decide) (by decide)

theorem scanList_value_last (c : Config) (opt : String) (ho : opt ∈ valueOptions) :
    scanList c [opt] = .usageExit .missingValue := by
  simp only [valueOptions, List.mem_cons, List.mem_singleton, List.not_mem_nil, or_false] at ho
  rcases ho with rfl | rfl | rfl | rfl <;> simp [scanList]

theorem scanList_positive (c : Config) (A : List String) :
    ∀ (c1 : Config), scanList c A = .config c1 →
      (∀ v ∈ valueTokens A, 0 < atoi v) → 0 < c.sample_rate → 0 < c.frame_size →
      0 < c1.sample_rate ∧ 0 < c1.frame_size := by
  induction c, A using scanList.induct with
  | case1 cfg =>
    intro c1 h _ hr hs
    simp only [scanList, Parsed.config.injEq] at h
    subst h
    exact ⟨hr, hs⟩
  | case2 cfg v hv =>
    intro c1 h
    simp [scanList, hv] at h
  | case3 cfg v hv v1 rest ih =>
    intro c1 h hpos hr hs
    simp only [scanList, hv, if_true] at h
    have hmem : v ∈ valueOptions := by
      rcases hv with rfl | rfl <;> simp [valueOptions]
    simp only [valueTokens, hmem, if_true, List.mem_cons, forall_eq_or_imp] at hpos
    exact ih c1 h hpos.2 hpos.1 hs
  | case4 cfg v hr hv =>
    intro c1 h
    simp [scanList, hr, hv] at h
  | case5 cfg v hr hv v1 rest ih =>
    intro c1 h hpos hrate _
    simp only [scanList, hr, hv, if_true, if_false] at h
    have hmem : v ∈ valueOptions := by
      rcases hv with rfl | rfl <;> simp [valueOptions]
    simp only [valueTokens, hmem, if_true, List.mem_cons, forall_eq_or_imp] at hpos
    exact ih c1 h hpos.2 hrate (toSizeT_pos _ hpos.1 (toInt32_bounds _).2)
  | case6 cfg v rest hr hs hv =>
    intro c1 h
    simp [scanList_help_of cfg v rest hr hs hv] at h
  | case7 cfg v rest hr hs hh ih =>
    intro c1 h hpos hrate hsize
    rw [scanList_other cfg v rest hr hs hh] at h
    have hmem : v ∉ valueOptions := by
      simp only [valueOptions, List.mem_cons, List.mem_singleton, List.not_mem_nil, or_false]
      tauto
    refine ih c1 h ?_ hrate hsize
    intro t ht
    apply hpos
    cases rest with
    | nil => simp [valueTokens] at ht
    | cons w rest1 => simpa [valueTokens, hmem] using ht

theorem scanList_plain (c : Config) (A : List String)
    (hA : ∀ t ∈ A, t ∉ valueOptions ∧ t ∉ helpOptions) : scanList c A = .config c := by
  induction A with
  | nil => simp [scanList]
  | cons t ts ih =>
    have ht := hA t (List.mem_cons_self t ts)
    simp only [valueOptions, helpOptions, List.mem_cons, List.mem_singleton, List.not_mem_nil,
      or_false, not_or] at ht
    have h1 : ¬ (t = "-r" ∨ t = "--rate") := by tauto
    have h2 : ¬ (t = "-s" ∨ t = "--samples") := by tauto
    have h3 : ¬ (t = "-h" ∨ t = "--help") := by tauto
    rw [scanList_other c t ts h1 h2 h3]
    exact ih (fun u hu => hA u (List.mem_cons_of_mem t hu))

theorem drop_eq_getD_cons (argv : List String) (i : Nat) (h : i < argv.length) :
    argv.drop i = argv.getD i "" :: argv.drop (i + 1) := by
  rw [List.drop_eq_getElem_cons h, List.getD_eq_getElem argv "" h]

theorem parseLoop_eq_scanList (argv : List String) (cfg : Config) (i : Nat) :
    parseLoop argv cfg i = scanList cfg (argv.drop i) := by
  induction cfg, i using parseLoop.induct argv with
  | case1 cfg i hi arg hr he =>
    have hlast : argv.drop (i + 1) = [] := by
      apply List.drop_of_length_le
      simpa [ensureArg] using he
    rw [parseLoop, if_pos hi]
    simp only [hr, he, if_true]
    rw [drop_eq_getD_cons argv i hi, hlast]
    simp only [scanList, hr, if_true]
  | case2 cfg i hi arg hr he ih =>
    have hnext : i + 1 < argv.length := by
      simpa [ensureArg] using he
    rw [parseLoop, if_pos hi]
    simp only [hr, he, if_true, Bool.false_eq_true, if_false]
    rw [ih, drop_eq_getD_cons argv i hi, drop_eq_getD_cons argv (i + 1) hnext]
    simp only [scanList, hr, if_true]
  | case3 cfg i hi arg hr hs he =>
    have hlast : argv.drop (i + 1) = [] := by
      apply List.drop_of_length_le
      simpa [ensureArg] using he
    rw [parseLoop, if_pos hi]
    simp only [hr, hs, he, if_true, if_false]
    rw [drop_eq_getD_cons argv i hi, hlast]
    simp only [scanList, hr, hs, if_true, if_false]
  | case4 cfg i hi arg hr hs he ih =>
    have hnext : i + 1 < argv.length := by
      simpa [ensureArg] using he
    rw [parseLoop, if_pos hi]
    simp only [hr, hs, he, if_true, Bool.false_eq_true, if_false]
    rw [ih, drop_eq_getD_cons argv i hi, drop_eq_getD_cons argv (i + 1) hnext]
    simp only [scanList, hr, hs, if_true, if_false]
  | case5 cfg i hi arg hr hs hh =>
    rw [parseLoop, if_pos hi]
    simp only [hr, hs, hh, if_true, if_false]
    rw [drop_eq_getD_cons argv i hi]
    exact (scanList_help_of cfg _ _ hr hs hh).symm
  | case6 cfg i hi arg hr hs hh ih =>
    rw [parseLoop, if_pos hi]
    simp only [hr, hs, hh, if_false]
    rw [ih, drop_eq_getD_cons argv i hi]
    exact (scanList_other cfg _ _ hr hs hh).symm
  | case7 cfg i hi =>
    rw [parseLoop, if_neg hi, List.drop_of_length_le (by omega)]
    rfl

theorem parseArgs_eq_scanList (argv : List String) :
    parseArgs argv = scanList defaultConfig (argv.drop 1) :=
  parseLoop_eq_scanList argv defaultConfig 1

/-! ## Lemmas on chunks and on the frame loop -/

theorem loopBody_trace {σ : Type} (E : Engine σ) (N : Nat) (r : Run σ) :
    ∃ evs, (loopBody E N r).trace = r.trace ++ evs ∧ ∀ e ∈ evs, e.isLoopEvent = true := by
  refine ⟨_, rfl, ?_⟩
  intro e he
  simp only [List.mem_cons, List.mem_singleton, List.not_mem_nil, or_false] at he
  rcases he with rfl | rfl | rfl | rfl <;> rfl

theorem whileLoop_trace {σ : Type} (E : Engine σ) (N : Nat) :
    ∀ (fuel : Nat) (r r1 : Run σ), whileLoop E N fuel r = some r1 →
      ∃ body, r1.trace = r.trace ++ body ∧ ∀ e ∈ body, e.isLoopEvent = true := by
  intro fuel
  induction fuel with
  | zero => intro r r1 h; simp [whileLoop] at h
  | succ fuel ih =>
    intro r r1 h
    by_cases hc : r.frames_read = N
    · simp only [whileLoop, hc, if_true] at h
      obtain ⟨body, hb, hall⟩ := ih _ _ h
      obtain ⟨evs, hevs, hall1⟩ := loopBody_trace E N r
      refine ⟨evs ++ body, ?_, ?_⟩
      · rw [hb, hevs, List.append_assoc]
      · intro e he
        rcases List.mem_append.1 he with h1 | h1
        · exact hall1 e h1
        · exact hall e h1
    · simp only [whileLoop, hc, if_false, Option.some.injEq] at h
      subst h
      exact ⟨[], by simp, by simp⟩

theorem whileLoop_zero {σ : Type} (E : Engine σ) :
    ∀ (fuel : Nat) (r : Run σ), r.frames_read = 0 → whileLoop E 0 fuel r = none := by
  intro fuel
  induction fuel with
  | zero => intro r _; rfl
  | succ fuel ih =>
    intro r h
    simp only [whileLoop, h, if_true]
    apply ih
    simp [loopBody, fread]

theorem filter_atHead {σ : Type} (E : Engine σ) (fuel : Nat) (cfg : Config)
    (input : List Sample) :
    filter E fuel cfg input =
      match whileLoop E cfg.frame_size fuel
          (atHead cfg.frame_size (E.init cfg.frame_size cfg.sample_rate)
            (List.replicate cfg.frame_size 0) input []
            [.engineInit cfg.frame_size cfg.sample_rate,
             .fread cfg.frame_size
               (fread (List.replicate cfg.frame_size 0) cfg.frame_size input).1]) with
      | none => none
      | some r =>
        some { exitCode := 0, stdout := r.stdout, stderr := "",
               trace := r.trace ++ [.engineDestroy] } := rfl

theorem filter_shape {σ : Type} (E : Engine σ) (fuel : Nat) (cfg : Config)
    (input : List Sample) (o : Outcome) (h : filter E fuel cfg input = some o) :
    o.exitCode = 0 ∧ o.stderr = "" ∧
      ∃ body, o.trace =
          .engineInit cfg.frame_size cfg.sample_rate :: body ++ [.engineDestroy] ∧
        ∀ e ∈ body, e.isLoopEvent = true := by
  rw [filter_atHead] at h
  split at h
  · exact absurd h (by simp)
  · rename_i r hr
    obtain ⟨body, hb, hall⟩ := whileLoop_trace E _ fuel _ r hr
    simp only [Option.some.injEq] at h
    subst h
    refine ⟨rfl, rfl, Event.fread cfg.frame_size
      (fread (List.replicate cfg.frame_size 0) cfg.frame_size input).1 :: body, ?_, ?_⟩
    · simp only [hb, atHead, List.cons_append, List.nil_append]
    · intro e he
      rcases List.mem_cons.1 he with h1 | h1
      · subst h1; rfl
      · exact hall e h1

theorem main_usage {σ : Type} (E : Engine σ) (fuel : Nat) (argv : List String)
    (input : List Sample) (why : UsageExit) (h : parseArgs argv = .usageExit why) :
    main E fuel argv input =
      some { exitCode := 0, stdout := [], stderr := printUsage argv, trace := [.usage] } := by
  simp only [main, h]

theorem main_config {σ : Type} (E : Engine σ) (fuel : Nat) (argv : List String)
    (input : List Sample) (cfg : Config) (h : parseArgs argv = .config cfg) :
    main E fuel argv input = filter E fuel cfg input := by
  simp only [main, h]

theorem main_eq_scanList {σ : Type} (E : Engine σ) (fuel : Nat) (argv : List String)
    (input : List Sample) :
    main E fuel argv input =
      match scanList defaultConfig (argv.drop 1) with
      | .usageExit _ =>
        some { exitCode := 0, stdout := [], stderr := printUsage argv, trace := [.usage] }
      | .config cfg => filter E fuel cfg input := by
  rw [main, parseArgs_eq_scanList]

/-! ## Properties of the frame loop -/

/-- C3, at frame size 0: after `-s 0`, or after `-s` with a value token that
is not a number, every read returns 0, which equals the frame size, so the
loop condition holds each time it is evaluated and the loop never exits,
whatever the input and however much fuel is given. -/
theorem frame_size_zero_never_exits {σ : Type} (E : Engine σ) (fuel : Nat)
    (input : List Sample) :
    main E fuel ["speexdsp-cli", "-s", "0"] input = none ∧
    main E fuel ["speexdsp-cli", "--samples", "abc"] input = none := by
  have h0 : parseArgs ["speexdsp-cli", "-s", "0"] =
      .config { sample_rate := 16000, frame_size := 0 } := by
    rw [parseArgs_eq_scanList]; decide
  have h1 : parseArgs ["speexdsp-cli", "--samples", "abc"] =
      .config { sample_rate := 16000, frame_size := 0 } := by
    rw [parseArgs_eq_scanList]; decide
  have hfil : filter E fuel { sample_rate := 16000, frame_size := 0 } input = none := by
    rw [filter_atHead, whileLoop_zero E fuel _ (by simp [atHead, fread])]
  exact ⟨by rw [main_config E fuel _ input _ h0, hfil],
         by rw [main_config E fuel _ input _ h1, hfil]⟩

/-! ## Properties of the option scan -/

/-- C4 as stated fails: in `speexdsp-cli -r -h` the token `-h` is one of the
arguments, yet it is taken as the value of `-r`; no usage text is printed,
the engine is created and the input is read. -/
theorem help_as_value_counterexample :
    "-h" ∈ ["speexdsp-cli", "-r", "-h"].drop 1 ∧
    main passEngine 1 ["speexdsp-cli", "-r", "-h"] [] =
      some { exitCode := 0, stdout := [], stderr := "",
             trace := [.engineInit 320 0, .fread 320 0, .engineDestroy] } :=
  ⟨by decide, by rw [main_eq_scanList]; decide⟩

/-- C4, amended: when `-h` or `--help` stands where the scan reads an option,
that is, the scan of the arguments before it runs to completion, the program
prints the usage text and exits with code 0; nothing else happens: no engine,
no read, no write. -/
theorem help_exits {σ : Type} (E : Engine σ) (fuel : Nat) (argv0 : String)
    (A B : List String) (h : String) (input : List Sample)
    (hh : h ∈ helpOptions) (hA : ∃ c, parseArgs (argv0 :: A) = .config c) :
    main E fuel (argv0 :: (A ++ h :: B)) input =
      some { exitCode := 0, stdout := [], stderr := printUsage (argv0 :: (A ++ h :: B)),
             trace := [.usage] } := by
  obtain ⟨c, hc⟩ := hA
  have hh1 : h = "-h" ∨ h = "--help" := by
    simpa [helpOptions] using hh
  rw [parseArgs_eq_scanList] at hc
  simp only [List.drop_succ_cons, List.drop_zero] at hc
  have hp : parseArgs (argv0 :: (A ++ h :: B)) = .usageExit .help := by
    rw [parseArgs_eq_scanList]
    simp only [List.drop_succ_cons, List.drop_zero]
    rw [scanList_append_config defaultConfig A (h :: B) c hc]
    exact scanList_help c h B hh1
  exact main_usage E fuel _ input _ hp

/-- Witness of C4, amended: `-s -r --help x`, where `-r` is the value of `-s`. -/
theorem help_exits_witness :
    ("--help" ∈ helpOptions ∧ ∃ c, parseArgs ("speexdsp-cli" :: ["-s", "-r"]) = .config c) ∧
    main countEngine 5 ("speexdsp-cli" :: (["-s", "-r"] ++ "--help" :: ["x"])) [1, 2, 3] =
      some { exitCode := 0, stdout := [],
             stderr := printUsage ("speexdsp-cli" :: (["-s", "-r"] ++ "--help" :: ["x"])),
             trace := [.usage] } :=
  have hA : ∃ c, parseArgs ("speexdsp-cli" :: ["-s", "-r"]) = .config c :=
    ⟨{ sample_rate := 16000, frame_size := 0 }, by rw [parseArgs_eq_scanList]; decide⟩
  ⟨⟨by decide, hA⟩,
   help_exits countEngine 5 "speexdsp-cli" ["-s", "-r"] ["x"] "--help" [1, 2, 3]
     (by decide) hA⟩

/-- C5 as stated fails: in `speexdsp-cli -s 2 -r -r` the last argument is
`-r`, yet it is taken as the value of the `-r` before it; no usage text is
printed, the engine is created, and a frame is read, processed and written. -/
theorem option_as_value_counterexample :
    ["speexdsp-cli", "-s", "2", "-r", "-r"].getLast? = some "-r" ∧
    main passEngine 2 ["speexdsp-cli", "-s", "2", "-r", "-r"] [5, 6, 7] =
      some { exitCode := 0, stdout := [5, 6], stderr := "",
             trace := [.engineInit 2 0, .fread 2 2, .engineRun [5, 6], .fwrite [5, 6],
                       .fflush, .fread 2 1, .engineDestroy] } :=
  ⟨by decide, by rw [main_eq_scanList]; decide⟩

/-- C5, amended: when the last argument is `-r`, `--rate`, `-s` or
`--samples` and it is not taken as the value of the option before it, that
is, the scan of the arguments before it does not stop for a missing value,
the program prints the usage text to the error stream and exits with code 0;
nothing else happens: no engine, no read, no write. -/
theorem missing_value_exits {σ : Type} (E : Engine σ) (fuel : Nat) (argv0 : String)
    (A : List String) (opt : String) (input : List Sample)
    (ho : opt ∈ valueOptions) (hA : parseArgs (argv0 :: A) ≠ .usageExit .missingValue) :
    main E fuel (argv0 :: (A ++ [opt])) input =
      some { exitCode := 0, stdout := [], stderr := printUsage (argv0 :: (A ++ [opt])),
             trace := [.usage] } := by
  rw [parseArgs_eq_scanList] at hA
  simp only [List.drop_succ_cons, List.drop_zero] at hA
  have hp : ∃ why, parseArgs (argv0 :: (A ++ [opt])) = .usageExit why := by
    rw [parseArgs_eq_scanList]
    simp only [List.drop_succ_cons, List.drop_zero]
    cases hpa : scanList defaultConfig A with
    | config c =>
      rw [scanList_append_config defaultConfig A [opt] c hpa]
      exact ⟨_, scanList_value_last c opt ho⟩
    | usageExit why =>
      cases why with
      | help => exact ⟨_, scanList_append_help defaultConfig A [opt] hpa⟩
      | missingValue => exact absurd hpa hA
  obtain ⟨why, hw⟩ := hp
  exact main_usage E fuel _ input _ hw

/-- Witness of C5, amended: `-r 8000 --samples`. -/
theorem missing_value_exits_witness :
    ("--samples" ∈ valueOptions ∧
      parseArgs ("speexdsp-cli" :: ["-r", "8000"]) ≠ .usageExit .missingValue) ∧
    main countEngine 5 ("speexdsp-cli" :: (["-r", "8000"] ++ ["--samples"])) [1, 2, 3] =
      some { exitCode := 0, stdout := [],
             stderr := printUsage ("speexdsp-cli" :: (["-r", "8000"] ++ ["--samples"])),
             trace := [.usage] } :=
  have hA : parseArgs ("speexdsp-cli" :: ["-r", "8000"]) ≠ .usageExit .missingValue := by
    rw [parseArgs_eq_scanList]; decide
  ⟨⟨by decide, hA⟩,
   missing_value_exits countEngine 5 "speexdsp-cli" ["-r", "8000"] "--samples" [1, 2, 3]
     (by decide) hA⟩

/-- C6: let the scan of the arguments `A` run to completion with
configuration `c`, and let the token be a decimal integer (an optional minus
sign and one or more digits) whose value `v` lies in the range of `int`.
Then `A` followed by `-r v`, or by `--rate v`, gives `c` with sample rate
`v`; and for `v ≥ 0`, `A` followed by `-s v`, or by `--samples v`, gives `c`
with frame size `v`. -/
theorem option_sets_value (argv0 : String) (A : List String) (c : Config) (neg : Bool)
    (ds : List Char) (hA : parseArgs (argv0 :: A) = .config c) (hne : ds ≠ [])
    (hd : ∀ ch ∈ ds, ch.isDigit = true)
    (h1 : -2147483648 ≤ decimalInt neg ds) (h2 : decimalInt neg ds ≤ 2147483647) :
    parseArgs (argv0 :: (A ++ ["-r", decimalToken neg ds])) =
        .config { c with sample_rate := decimalInt neg ds } ∧
    parseArgs (argv0 :: (A ++ ["--rate", decimalToken neg ds])) =
        .config { c with sample_rate := decimalInt neg ds } ∧
    (0 ≤ decimalInt neg ds →
      parseArgs (argv0 :: (A ++ ["-s", decimalToken neg ds])) =
          .config { c with frame_size := (decimalInt neg ds).toNat } ∧
      parseArgs (argv0 :: (A ++ ["--samples", decimalToken neg ds])) =
          .config { c with frame_size := (decimalInt neg ds).toNat }) := by
  have hat := atoi_decimalToken neg ds hne hd h1 h2
  simp only [parseArgs_eq_scanList, List.drop_succ_cons, List.drop_zero] at hA ⊢
  refine ⟨?_, ?_, ?_⟩
  · rw [scanList_append_config defaultConfig A _ c hA]
    simp [scanList, hat]
  · rw [scanList_append_config defaultConfig A _ c hA]
    simp [scanList, hat]
  · intro h0
    constructor
    · rw [scanList_append_config defaultConfig A _ c hA]
      simp [scanList, hat, toSizeT_of_nonneg _ h0 h2]
    · rw [scanList_append_config defaultConfig A _ c hA]
      simp [scanList, hat, toSizeT_of_nonneg _ h0 h2]

/-- Witness of C6: `--rate 8000 -s 160` followed by an option with value
`48000`; the later option overrides the earlier one. -/
theorem option_sets_value_witness :
    (parseArgs ("speexdsp-cli" :: ["--rate", "8000", "-s", "160"]) =
        .config { sample_rate := 8000, frame_size := 160 } ∧
      ['4', '8', '0', '0', '0'] ≠ [] ∧
      (∀ ch ∈ ['4', '8', '0', '0', '0'], ch.isDigit = true) ∧
      -2147483648 ≤ decimalInt false ['4', '8', '0', '0', '0'] ∧
      decimalInt false ['4', '8', '0', '0', '0'] ≤ 2147483647) ∧
    (parseArgs ("speexdsp-cli" :: (["--rate", "8000", "-s", "160"] ++
          ["-r", decimalToken false ['4', '8', '0', '0', '0']])) =
        .config { ({ sample_rate := 8000, frame_size := 160 } : Config) with
          sample_rate := decimalInt false ['4', '8', '0', '0', '0'] } ∧
     parseArgs ("speexdsp-cli" :: (["--rate", "8000", "-s", "160"] ++
          ["--rate", decimalToken false ['4', '8', '0', '0', '0']])) =
        .config { ({ sample_rate := 8000, frame_size := 160 } : Config) with
          sample_rate := decimalInt false ['4', '8', '0', '0', '0'] } ∧
     (0 ≤ decimalInt false ['4', '8', '0', '0', '0'] →
       parseArgs ("speexdsp-cli" :: (["--rate", "8000", "-s", "160"] ++
            ["-s", decimalToken false ['4', '8', '0', '0', '0']])) =
          .config { ({ sample_rate := 8000, frame_size := 160 } : Config) with
            frame_size := (decimalInt false ['4', '8', '0', '0', '0']).toNat } ∧
       parseArgs ("speexdsp-cli" :: (["--rate", "8000", "-s", "160"] ++
            ["--samples", decimalToken false ['4', '8', '0', '0', '0']])) =
          .config { ({ sample_rate := 8000, frame_size := 160 } : Config) with
            frame_size := (decimalInt false ['4', '8', '0', '0', '0']).toNat })) :=
  have hA : parseArgs ("speexdsp-cli" :: ["--rate", "8000", "-s", "160"]) =
      .config { sample_rate := 8000, frame_size := 160 } := by
    rw [parseArgs_eq_scanList]; decide
  ⟨⟨hA, by decide, by decide, by decide, by decide⟩,
   option_sets_value "speexdsp-cli" ["--rate", "8000", "-s", "160"]
     { sample_rate := 8000, frame_size := 160 }
     false ['4', '8', '0', '0', '0'] hA (by decide) (by decide) (by decide) (by decide)⟩

/-- C7: when none of `argv[1..]` is `-r`, `--rate`, `-s`, `--samples`, `-h`
or `--help` (in particular when there is no argument at all), the scan runs
to completion with sample rate 16000 and frame size 320, and the program is
the filter with this configuration: no usage text, no exit from the scan. -/
theorem defaults_without_options (argv : List String)
    (h : ∀ t ∈ argv.drop 1, t ∉ valueOptions ∧ t ∉ helpOptions) :
    parseArgs argv = .config { sample_rate := 16000, frame_size := 320 } ∧
    ∀ (σ : Type) (E : Engine σ) (fuel : Nat) (input : List Sample),
      main E fuel argv input =
        filter E fuel { sample_rate := 16000, frame_size := 320 } input ∧
      ∀ o, main E fuel argv input = some o →
        o.stderr = "" ∧ Event.usage ∉ o.trace := by
  have hp : parseArgs argv = .config { sample_rate := 16000, frame_size := 320 } := by
    rw [parseArgs_eq_scanList]
    exact scanList_plain defaultConfig _ h
  refine ⟨hp, ?_⟩
  intro σ E fuel input
  have hm := main_config E fuel argv input _ hp
  refine ⟨hm, ?_⟩
  intro o ho
  rw [hm] at ho
  obtain ⟨_, herr, body, hb, hall⟩ := filter_shape E fuel _ input o ho
  refine ⟨herr, ?_⟩
  rw [hb]
  intro hmem
  simp only [List.mem_cons, List.mem_append, List.mem_singleton, List.not_mem_nil, or_false,
    false_or, reduceCtorEq] at hmem
  have := hall _ hmem
  simp [Event.isLoopEvent] at this

/-- Witness of C7: two tokens that are not options. -/
theorem defaults_without_options_witness :
    (∀ t ∈ ["speexdsp-cli", "--verbose", "x"].drop 1, t ∉ valueOptions ∧ t ∉ helpOptions) ∧
    (parseArgs ["speexdsp-cli", "--verbose", "x"] =
        .config { sample_rate := 16000, frame_size := 320 } ∧
     ∀ (σ : Type) (E : Engine σ) (fuel : Nat) (input : List Sample),
      main E fuel ["speexdsp-cli", "--verbose", "x"] input =
        filter E fuel { sample_rate := 16000, frame_size := 320 } input ∧
      ∀ o, main E fuel ["speexdsp-cli", "--verbose", "x"] input = some o →
        o.stderr = "" ∧ Event.usage ∉ o.trace) :=
  ⟨by decide, defaults_without_options ["speexdsp-cli", "--verbose", "x"] (by decide)⟩

/-! ## Exit code, engine lifecycle, configuration -/

/-- C9: the trace of a run that ends has one of two shapes.  After a usage
exit (help token or missing value) it is the usage text alone: the engine is
neither created nor released.  Otherwise it starts with the creation of the
engine from the parsed configuration, ends with its release, and in between
holds only reads, engine runs, writes and flushes: one creation, before every
engine run, and one release, after every engine run. -/
theorem engine_lifecycle {σ : Type} (E : Engine σ) (fuel : Nat) (argv : List String)
    (input : List Sample) (o : Outcome) (h : main E fuel argv input = some o) :
    ((∃ why, parseArgs argv = .usageExit why) ∧ o.trace = [.usage]) ∨
    (∃ cfg body, parseArgs argv = .config cfg ∧
      o.trace = .engineInit cfg.frame_size cfg.sample_rate :: body ++ [.engineDestroy] ∧
      ∀ e ∈ body, e.isLoopEvent = true) := by
  cases hp : parseArgs argv with
  | config c =>
    right
    rw [main_config E fuel argv input c hp] at h
    obtain ⟨_, _, body, hb, hall⟩ := filter_shape E fuel c input o h
    exact ⟨c, body, rfl, hb, hall⟩
  | usageExit why =>
    left
    rw [main_usage E fuel argv input why hp, Option.some.injEq] at h
    exact ⟨⟨why, rfl⟩, by rw [← h]⟩

/-- Witness of C9: `speexdsp-cli -s 3` on eight samples. -/
theorem engine_lifecycle_witness :
    main countEngine 3 demoArgv demoInput = some demoOutcome ∧
    (((∃ why, parseArgs demoArgv = .usageExit why) ∧ demoOutcome.trace = [.usage]) ∨
      (∃ cfg body, parseArgs demoArgv = .config cfg ∧
        demoOutcome.trace =
          .engineInit cfg.frame_size cfg.sample_rate :: body ++ [.engineDestroy] ∧
        ∀ e ∈ body, e.isLoopEvent = true)) :=
  have hrun : main countEngine 3 demoArgv demoInput = some demoOutcome := by
    rw [main_eq_scanList]; decide
  ⟨hrun, engine_lifecycle countEngine 3 demoArgv demoInput demoOutcome hrun⟩

/-- C10 as stated fails: `-r -8000 -s 0` is scanned to completion with sample
rate -8000 and frame size 0. -/
theorem degenerate_config_counterexample :
    parseArgs ["speexdsp-cli", "-r", "-8000", "-s", "0"] =
        .config { sample_rate := -8000, frame_size := 0 } ∧
    ¬ (0 < ({ sample_rate := -8000, frame_size := 0 } : Config).sample_rate ∧
       0 < ({ sample_rate := -8000, frame_size := 0 } : Config).frame_size) :=
  ⟨by rw [parseArgs_eq_scanList]; decide, by decide⟩

/-- C10, amended: when the scan runs to completion and every value token
given to `-r`, `--rate`, `-s` or `--samples` converts to a positive integer,
the configuration has a positive sample rate and a positive frame size. -/
theorem positive_config (argv : List String) (c : Config)
    (h : parseArgs argv = .config c)
    (hv : ∀ v ∈ valueTokens (argv.drop 1), 0 < atoi v) :
    0 < c.sample_rate ∧ 0 < c.frame_size := by
  rw [parseArgs_eq_scanList] at h
  exact scanList_positive defaultConfig _ c h hv (by decide) (by decide)

/-- Witness of C10, amended: `-r 48000 x -s 960`. -/
theorem positive_config_witness :
    (parseArgs ["speexdsp-cli", "-r", "48000", "x", "-s", "960"] =
        .config { sample_rate := 48000, frame_size := 960 } ∧
      ∀ v ∈ valueTokens (["speexdsp-cli", "-r", "48000", "x", "-s", "960"].drop 1),
        0 < atoi v) ∧
    (0 < ({ sample_rate := 48000, frame_size := 960 } : Config).sample_rate ∧
     0 < ({ sample_rate := 48000, frame_size := 960 } : Config).frame_size) :=
  have hA : parseArgs ["speexdsp-cli", "-r", "48000", "x", "-s", "960"] =
      .config { sample_rate := 48000, frame_size := 960 } := by
    rw [parseArgs_eq_scanList]; decide
  ⟨⟨hA, by decide⟩,
   positive_config ["speexdsp-cli", "-r", "48000", "x", "-s", "960"]
     { sample_rate := 48000, frame_size := 960 } hA (by decide)⟩

end SpeexCli
